import Mathlib

/-!
Shallow embedding of the pysequencer grid engine (`schemas.py`, `settings.py`,
`pianoroll.py`): the key catalog, the click/toggle handler, the playback-cursor
advance, and the per-cell style resolution inside `render_line`.

Python's unbounded signed integers are modelled as `Int`; the `drawn_keys_state`
dict as a function `Offset → Option PianoKey` (Python dict equality is
extensional, order-insensitive); a Python `IndexError` as `none` in an
`Option`-valued result.
-/

/-- Musical letter names, mirroring the `Note` enum in `schemas.py`. -/
inductive Note where
  | A | B | C | D | E | F | G
deriving DecidableEq

/-- Piano key record, mirroring the `PianoKey` dataclass in `schemas.py`. -/
structure PianoKey where
  note : Note
  octave : Nat
  sharp : Bool
deriving DecidableEq

/-- Octave count, `OCTAVES = 3` in `settings.py`. -/
def OCTAVES : Nat := 3

/-- The twelve chromatic keys that one iteration of the `settings.py` loop
appends for a given `octave`: (C, C#, D, D#, E, F, F#, G, G#, A, A#, B). -/
def octaveBlock (octave : Nat) : List PianoKey :=
  [⟨Note.C, octave, false⟩, ⟨Note.C, octave, true⟩,
   ⟨Note.D, octave, false⟩, ⟨Note.D, octave, true⟩,
   ⟨Note.E, octave, false⟩,
   ⟨Note.F, octave, false⟩, ⟨Note.F, octave, true⟩,
   ⟨Note.G, octave, false⟩, ⟨Note.G, octave, true⟩,
   ⟨Note.A, octave, false⟩, ⟨Note.A, octave, true⟩,
   ⟨Note.B, octave, false⟩]

/-- Catalog builder: `for octave in range(n, 0, -1)` extends `KEY_SEQUENCE`
with `octaveBlock octave`, so octaves are emitted from highest (`n`) down
to `1`. -/
def buildKeys : Nat → List PianoKey
  | 0 => []
  | n + 1 => octaveBlock (n + 1) ++ buildKeys n

/-- The `PIANO_KEYS` catalog of `settings.py`. -/
def PIANO_KEYS : List PianoKey := buildKeys OCTAVES

/-- Cell height in lines, `ROW_LENGTH = 1` in `settings.py`. -/
def ROW_LENGTH : Int := 1

/-- Step-column count, `NOTE_COUNT = 16` in `settings.py`. -/
def NOTE_COUNT : Nat := 16

/-- Transport row, `CURSOR_ROW = 12 * OCTAVES + 1` in `settings.py`. -/
def CURSOR_ROW : Int := 12 * (OCTAVES : Int) + 1

/-- Cell address / textual offset with Python's unbounded signed integers,
mirroring `textual.geometry.Offset` as the code uses it. -/
structure Offset where
  x : Int
  y : Int
deriving DecidableEq

/-- Python list indexing `l[i]`: a negative index counts from the end of the
list, and an index outside `[-len l, len l)` raises `IndexError`, modelled
here as `none`. -/
def pyIndex {α : Type} (l : List α) (i : Int) : Option α :=
  let j : Int := if i < 0 then (l.length : Int) + i else i
  if 0 ≤ j then l.get? j.toNat else none

/-- The `drawn_keys_state` dict: maps a cell address to the stored `PianoKey`;
`none` means the cell is not lit. -/
def NoteMap : Type := Offset → Option PianoKey

/-- The empty note map (initial `drawn_keys_state = {}`). -/
def emptyMap : NoteMap := fun _ => none

/-- The `PianoRoll.Selected` message payload: the raw clicked cell and the
current note-map snapshot. -/
structure SelectedEvent where
  clickedCell : Offset
  currentState : NoteMap

/-- Click handler `PianoRoll._on_click` (the clicked cell is `cursor_cell`,
stored into `last_clicked` and carried raw in the event): when
`x > 0 and y - 1 < len(PIANO_KEYS)`, pop the cell if lit, else store
`PIANO_KEYS[y - 1]` (Python indexing, so negative `y - 1` counts from the
end); in every non-raising path a `Selected` event with the clicked cell and
the resulting map is posted. `none` models the `IndexError` raised by
`PIANO_KEYS[y - 1]` when `y - 1 < -len(PIANO_KEYS)`. -/
def onClick (m : NoteMap) (clicked : Offset) : Option (NoteMap × SelectedEvent) :=
  if clicked.x > 0 ∧ clicked.y - 1 < (PIANO_KEYS.length : Int) then
    if (m clicked).isSome then
      let m2 : NoteMap := fun b => if b = clicked then none else m b
      some (m2, ⟨clicked, m2⟩)
    else
      match pyIndex PIANO_KEYS (clicked.y - 1) with
      | some k =>
        let m2 : NoteMap := fun b => if b = clicked then some k else m b
        some (m2, ⟨clicked, m2⟩)
      | none => none
  else
    some (m, ⟨clicked, m⟩)

/-- The `PianoRoll.Played` message payload. -/
structure PlayedEvent where
  currentCell : Offset
deriving DecidableEq

/-- Observable outcome of one `PianoRoll.play` call: the posted `Played`
events, and the pair of cells passed to `refresh_cell` (the dirty pair). -/
structure PlayResult where
  events : List PlayedEvent
  previousCell : Offset
  newCursor : Offset
deriving DecidableEq

/-- Tick handler `PianoRoll.play`: posts `Played(play_cursor)` first (payload
is the pre-advance cursor), then computes `previous_cell` and the new cursor
(`x + 1` when `x < 16`, else wrap to `1`), then refreshes the dirty pair
`(previous_cell, play_cursor)`. -/
def playStep (cur : Offset) : PlayResult :=
  if cur.x < 16 then
    { events := [⟨cur⟩], previousCell := ⟨cur.x - 1, CURSOR_ROW⟩,
      newCursor := ⟨cur.x + 1, CURSOR_ROW⟩ }
  else
    { events := [⟨cur⟩], previousCell := ⟨16, CURSOR_ROW⟩,
      newCursor := ⟨1, CURSOR_ROW⟩ }

/-- Cursor after one `play` call. -/
def advanceCursor (cur : Offset) : Offset := (playStep cur).newCursor

/-- Clear handler `PianoRoll.clear`: resets `drawn_keys_state` to `{}`. -/
def clearMap (_m : NoteMap) : NoteMap := fun _ => none

/-- Style tags, one per component class of `PianoRoll.COMPONENT_CLASSES`. -/
inductive StyleTag where
  | whiteKey | whiteCell | blackKey | blackCell
  | mouseoverCell | selectedCell | playInactive | playActive
deriving DecidableEq

/-- Widget state read by rendering: `cursor_cell` (hover), `last_clicked`,
`drawn_keys_state` and `play_cursor`. -/
structure RollState where
  cursorCell : Offset
  lastClicked : Offset
  noteMap : NoteMap
  playCursor : Offset

/-- Style resolution `get_style` inside `PianoRoll.render_line`; `rowIndex`
is the closure variable `row_index` (at every call site `row = rowIndex`).
Priority: transport row, hover, selected, then key/cell colour from
`PIANO_KEYS[row_index - 1]` (Python indexing); `none` models the
`IndexError` when `row_index - 1 < -len(PIANO_KEYS)`. -/
def getStyle (st : RollState) (rowIndex column row : Int) : Option StyleTag :=
  if row = (PIANO_KEYS.length : Int) + 1 then
    if (⟨column, row⟩ : Offset) = st.playCursor then some StyleTag.playActive
    else some StyleTag.playInactive
  else if st.cursorCell = ⟨column, row⟩ then some StyleTag.mouseoverCell
  else if (st.noteMap ⟨column, row⟩).isSome then some StyleTag.selectedCell
  else
    match pyIndex PIANO_KEYS (rowIndex - 1) with
    | some k =>
      if column = 0 then some (if k.sharp then StyleTag.blackKey else StyleTag.whiteKey)
      else some (if k.sharp then StyleTag.blackCell else StyleTag.whiteCell)
    | none => none

/-- Line renderer `PianoRoll.render_line`: the row index is
`(y + scroll_y) // ROW_LENGTH`; a row past `len(PIANO_KEYS) + 1` yields a
blank strip (modelled `some []`); otherwise one styled cell per column
`0 .. NOTE_COUNT`. `none` models an `IndexError` escaping `get_style`. -/
def renderLine (st : RollState) (scrollY y0 : Int) : Option (List StyleTag) :=
  let rowIndex : Int := Int.fdiv (y0 + scrollY) ROW_LENGTH
  if rowIndex > (PIANO_KEYS.length : Int) + 1 then some []
  else (List.range (NOTE_COUNT + 1)).mapM fun c => getStyle st rowIndex (c : Int) rowIndex

/-- Pointer mapper `on_mouse_move`: floor division of the translated pointer
position by the cell size `(8, ROW_LENGTH)`. -/
def onMouseMove (offset scroll : Offset) : Offset :=
  ⟨Int.fdiv (offset.x + scroll.x) 8, Int.fdiv (offset.y + scroll.y) ROW_LENGTH⟩

/-- Specification-side definition of the fixed twelve-key chromatic pattern
(C, C#, D, D#, E, F, F#, G, G#, A, A#, B) as (note, sharp) pairs, written
from the spec's wording to compare the built catalog against. -/
def chromaticPatternSpec : List (Note × Bool) :=
  [(Note.C, false), (Note.C, true), (Note.D, false), (Note.D, true), (Note.E, false),
   (Note.F, false), (Note.F, true), (Note.G, false), (Note.G, true),
   (Note.A, false), (Note.A, true), (Note.B, false)]

/-- Helper: Python indexing succeeds exactly on `[-len l, len l)`; here the
success half. -/
theorem pyIndex_isSome {α : Type} (l : List α) (i : Int)
    (h1 : -(l.length : Int) ≤ i) (h2 : i < (l.length : Int)) :
    (pyIndex l i).isSome := by
  have key : ∀ j : Int, 0 ≤ j → j.toNat < l.length → (l.get? j.toNat).isSome := by
    intro j _ hlt
    cases hg : l.get? j.toNat with
    | none => exact absurd (List.get?_eq_none.mp hg) (by omega)
    | some a => rfl
  simp only [pyIndex]
  by_cases hi : i < 0
  · rw [if_pos hi, if_pos (by omega)]
    exact key _ (by omega) (by omega)
  · rw [if_neg hi, if_pos (by omega)]
    exact key _ (by omega) (by omega)

/-- Helper: an `Option`-monad `mapM` over a list succeeds when every element
does. -/
theorem mapM_option_isSome {α β : Type} (f : α → Option β) (l : List α)
    (h : ∀ a ∈ l, (f a).isSome) : (l.mapM f).isSome := by
  induction l with
  | nil => rfl
  | cons a t ih =>
    rw [List.mapM_cons]
    obtain ⟨b, hb⟩ := Option.isSome_iff_exists.mp (h a (List.mem_cons_self a t))
    obtain ⟨bs, hbs⟩ :=
      Option.isSome_iff_exists.mp (ih fun x hx => h x (List.mem_cons_of_mem a hx))
    rw [hb, hbs]
    rfl

/-- Helper: clicking a lit in-guard cell pops it. -/
theorem onClick_lit (m : NoteMap) (a : Offset)
    (hg : a.x > 0 ∧ a.y - 1 < (PIANO_KEYS.length : Int)) (hm : (m a).isSome) :
    onClick m a = some (fun b => if b = a then none else m b,
      ⟨a, fun b => if b = a then none else m b⟩) := by
  unfold onClick
  rw [if_pos hg, if_pos hm]

/-- Helper: clicking an unlit in-guard cell stores the indexed catalog key. -/
theorem onClick_unlit (m : NoteMap) (a : Offset) (k : PianoKey)
    (hg : a.x > 0 ∧ a.y - 1 < (PIANO_KEYS.length : Int)) (hm : m a = none)
    (hk : pyIndex PIANO_KEYS (a.y - 1) = some k) :
    onClick m a = some (fun b => if b = a then some k else m b,
      ⟨a, fun b => if b = a then some k else m b⟩) := by
  unfold onClick
  rw [if_pos hg, if_neg (by simp [hm]), hk]

/-- Helper: style resolution is total for row indices in the range the line
renderer can actually pass it (`-len(PIANO_KEYS) < rowIndex ≤ len + 1`). -/
theorem getStyle_isSome (st : RollState) (ri column : Int)
    (h1 : -(PIANO_KEYS.length : Int) < ri) (h2 : ri ≤ (PIANO_KEYS.length : Int) + 1) :
    (getStyle st ri column ri).isSome := by
  unfold getStyle
  by_cases he : ri = (PIANO_KEYS.length : Int) + 1
  · rw [if_pos he]
    split <;> rfl
  · rw [if_neg he]
    by_cases hh : st.cursorCell = ⟨column, ri⟩
    · rw [if_pos hh]; rfl
    · rw [if_neg hh]
      by_cases hl : (st.noteMap ⟨column, ri⟩).isSome
      · rw [if_pos hl]; rfl
      · rw [if_neg hl]
        obtain ⟨k, hk⟩ := Option.isSome_iff_exists.mp
          (pyIndex_isSome PIANO_KEYS (ri - 1) (by omega) (by omega))
        rw [hk]
        split
        · split <;> rfl
        · simp_all

/-- Demo widget state whose hover cell (2, 3) is also lit. -/
def demoLitMap : NoteMap := fun b => if b = ⟨2, 3⟩ then some ⟨Note.A, 1, false⟩ else none

/-- Demo widget state: hovering the lit cell (2, 3), cursor at the start. -/
def demoState : RollState :=
  { cursorCell := ⟨2, 3⟩, lastClicked := ⟨0, 0⟩, noteMap := demoLitMap,
    playCursor := ⟨1, CURSOR_ROW⟩ }

/-- Demo widget state with nothing lit and the hover cell away from row 0. -/
def demoPlainState : RollState :=
  { cursorCell := ⟨5, 5⟩, lastClicked := ⟨0, 0⟩, noteMap := emptyMap,
    playCursor := ⟨1, CURSOR_ROW⟩ }

/-- Claim C1, counterexample: the address (1, 0) has row 0 outside
[1, len(catalog)], yet clicking it on the empty map mutates the note map —
the guard `y - 1 < len(PIANO_KEYS)` has no lower bound, so row 0 is toggled
on with `PIANO_KEYS[-1]` (the key B1). -/
theorem toggle_row_zero_mutates :
    ((onClick emptyMap ⟨1, 0⟩).map fun r => r.1 ⟨1, 0⟩)
      = some (some ⟨Note.B, 1, false⟩) ∧
    emptyMap ⟨1, 0⟩ = none := ⟨by decide, rfl⟩

/-- Claim C1, amended: for an address with column ≤ 0 or row > len(catalog)
(the range the code's guard actually rejects), a click leaves the note map
unchanged, but still returns a `Selected` event carrying the raw address and
the current snapshot. (Rows ≤ 0 with column > 0 are NOT no-ops: they mutate
the map through Python negative indexing.) -/
theorem toggle_out_of_range_noop (m : NoteMap) (a : Offset)
    (h : a.x ≤ 0 ∨ (PIANO_KEYS.length : Int) < a.y) :
    onClick m a = some (m, ⟨a, m⟩) := by
  unfold onClick
  rw [if_neg (by omega)]

/-- Witness for `toggle_out_of_range_noop` at the concrete gutter address
(0, 5). -/
theorem toggle_out_of_range_noop_witness :
    onClick emptyMap ⟨0, 5⟩ = some (emptyMap, ⟨⟨0, 5⟩, emptyMap⟩) :=
  toggle_out_of_range_noop emptyMap ⟨0, 5⟩ (Or.inl (by decide))

/-- Claim C2 (code bug): advancing from column 1 (a non-wrap advance) marks
the dirty pair ((0, CURSOR_ROW), (2, CURSOR_ROW)) — `play` computes
`previous_cell` as `play_cursor.x - 1` although the cursor is still at
`play_cursor.x` — so the vacated cell (1, CURSOR_ROW) is not in the pair,
contradicting the claim that the pair is the previous and new positions. -/
theorem play_dirty_pair_off_by_one :
    playStep ⟨1, CURSOR_ROW⟩ =
      { events := [⟨⟨1, CURSOR_ROW⟩⟩], previousCell := ⟨0, CURSOR_ROW⟩,
        newCursor := ⟨2, CURSOR_ROW⟩ } ∧
    (⟨0, CURSOR_ROW⟩ : Offset) ≠ ⟨1, CURSOR_ROW⟩ := by decide

/-- Claim C7: each advance sends column c to c + 1 when c < 16 and to 1 when
c = 16, and 16 advances from column 1 return the cursor to column 1. -/
theorem advance_wrap_period (c : Int) :
    (c < 16 → advanceCursor ⟨c, CURSOR_ROW⟩ = ⟨c + 1, CURSOR_ROW⟩) ∧
    (c = 16 → advanceCursor ⟨c, CURSOR_ROW⟩ = ⟨1, CURSOR_ROW⟩) ∧
    advanceCursor^[16] ⟨1, CURSOR_ROW⟩ = ⟨1, CURSOR_ROW⟩ := by
  refine ⟨fun h => ?_, fun h => ?_, by decide⟩
  · simp [advanceCursor, playStep, h]
  · subst h; decide

/-- Witness for `advance_wrap_period` at columns 10 and 16. -/
theorem advance_wrap_period_witness :
    advanceCursor ⟨10, CURSOR_ROW⟩ = ⟨11, CURSOR_ROW⟩ ∧
    advanceCursor ⟨16, CURSOR_ROW⟩ = ⟨1, CURSOR_ROW⟩ :=
  ⟨by simpa using (advance_wrap_period 10).1 (by decide),
   (advance_wrap_period 16).2.1 rfl⟩

/-- Claim C8: one `play` call posts exactly one `Played` event, and its
payload is the pre-advance cursor position (the event is posted before the
cursor moves, so it carries the cell that was just visited). -/
theorem played_event_pre_advance (cur : Offset) :
    (playStep cur).events = [⟨cur⟩] := by
  unfold playStep
  split <;> rfl

/-- Claim C5: on the transport row (row = len(catalog) + 1) the resolver
returns `playActive` exactly at the playback cursor and `playInactive`
elsewhere, and never the hover or selected styles — for every widget state,
including states whose hover cell or note map hits that cell. -/
theorem transport_row_exclusive (st : RollState) (rowIndex column : Int) :
    getStyle st rowIndex column ((PIANO_KEYS.length : Int) + 1) =
      some (if (⟨column, (PIANO_KEYS.length : Int) + 1⟩ : Offset) = st.playCursor
        then StyleTag.playActive else StyleTag.playInactive) ∧
    getStyle st rowIndex column ((PIANO_KEYS.length : Int) + 1)
      ≠ some StyleTag.mouseoverCell ∧
    getStyle st rowIndex column ((PIANO_KEYS.length : Int) + 1)
      ≠ some StyleTag.selectedCell := by
  have h : getStyle st rowIndex column ((PIANO_KEYS.length : Int) + 1) =
      some (if (⟨column, (PIANO_KEYS.length : Int) + 1⟩ : Offset) = st.playCursor
        then StyleTag.playActive else StyleTag.playInactive) := by
    unfold getStyle
    rw [if_pos rfl]
    by_cases hc : (⟨column, (PIANO_KEYS.length : Int) + 1⟩ : Offset) = st.playCursor
    · rw [if_pos hc, if_pos hc]
    · rw [if_neg hc, if_neg hc]
  refine ⟨h, ?_, ?_⟩ <;> rw [h] <;> split <;> simp

/-- Claim C4: off the transport row, a cell that is simultaneously the hover
cell and a lit (selected) cell resolves to the hover style, never the
selected style — the hover check precedes the note-map check. -/
theorem hover_overrides_selected (st : RollState) (column row : Int)
    (hrow : row ≠ (PIANO_KEYS.length : Int) + 1)
    (hhover : st.cursorCell = ⟨column, row⟩)
    (_hlit : (st.noteMap ⟨column, row⟩).isSome) :
    getStyle st row column row = some StyleTag.mouseoverCell ∧
    getStyle st row column row ≠ some StyleTag.selectedCell := by
  have h : getStyle st row column row = some StyleTag.mouseoverCell := by
    unfold getStyle
    rw [if_neg hrow, if_pos hhover]
  exact ⟨h, by rw [h]; simp⟩

/-- Witness for `hover_overrides_selected`: in `demoState` the hover cell
(2, 3) is lit, and it renders with the hover style. -/
theorem hover_overrides_selected_witness :
    getStyle demoState 3 2 3 = some StyleTag.mouseoverCell ∧
    getStyle demoState 3 2 3 ≠ some StyleTag.selectedCell :=
  hover_overrides_selected demoState 2 3 (by decide) rfl (by decide)

/-- Claim C10: on row 0 (the header row) a cell that is neither hovered nor
lit resolves through `PIANO_KEYS[row_index - 1] = PIANO_KEYS[-1]` — Python
negative indexing picks the LAST catalog entry (B1, not sharp) — so row 0
renders as a white key/cell row of the final key, not as a blank or a
distinct header style. -/
theorem row_zero_renders_last_key (st : RollState) (column : Int)
    (hhover : st.cursorCell ≠ ⟨column, 0⟩)
    (hunlit : st.noteMap ⟨column, 0⟩ = none) :
    getStyle st 0 column 0 =
      some (if column = 0 then StyleTag.whiteKey else StyleTag.whiteCell) ∧
    pyIndex PIANO_KEYS (0 - 1) = PIANO_KEYS.get? (PIANO_KEYS.length - 1) ∧
    PIANO_KEYS.get? (PIANO_KEYS.length - 1) = some ⟨Note.B, 1, false⟩ := by
  refine ⟨?_, by decide, by decide⟩
  unfold getStyle
  rw [if_neg (by decide), if_neg hhover, if_neg (by simp [hunlit])]
  have hpy : pyIndex PIANO_KEYS ((0 : Int) - 1) = some ⟨Note.B, 1, false⟩ := by decide
  rw [hpy]
  show (if column = 0 then some StyleTag.whiteKey else some StyleTag.whiteCell)
      = some (if column = 0 then StyleTag.whiteKey else StyleTag.whiteCell)
  by_cases hc : column = 0
  · rw [if_pos hc, if_pos hc]
  · rw [if_neg hc, if_neg hc]

/-- Witness for `row_zero_renders_last_key` at column 2 of `demoPlainState`. -/
theorem row_zero_renders_last_key_witness :
    getStyle demoPlainState 0 2 0 =
      some (if (2 : Int) = 0 then StyleTag.whiteKey else StyleTag.whiteCell) ∧
    pyIndex PIANO_KEYS (0 - 1) = PIANO_KEYS.get? (PIANO_KEYS.length - 1) ∧
    PIANO_KEYS.get? (PIANO_KEYS.length - 1) = some ⟨Note.B, 1, false⟩ :=
  row_zero_renders_last_key demoPlainState 2 (by decide) rfl

/-- Claim C6: toggling a valid in-range address twice restores the note map,
for every map satisfying the program's state invariant that a lit cell
stores the catalog key of its row (every map reachable by clicks does, since
toggle-on always stores `PIANO_KEYS[y - 1]`). -/
theorem toggle_twice_identity (m : NoteMap) (a : Offset)
    (hx : 0 < a.x) (h1 : 1 ≤ a.y) (h2 : a.y ≤ (PIANO_KEYS.length : Int))
    (hwf : ∀ k, m a = some k → pyIndex PIANO_KEYS (a.y - 1) = some k) :
    ((onClick m a).bind fun r => (onClick r.1 a).map Prod.fst) = some m := by
  have hg : a.x > 0 ∧ a.y - 1 < (PIANO_KEYS.length : Int) := ⟨hx, by omega⟩
  obtain ⟨k0, hk0⟩ := Option.isSome_iff_exists.mp
    (pyIndex_isSome PIANO_KEYS (a.y - 1) (by omega) (by omega))
  cases hm : m a with
  | none =>
    rw [onClick_unlit m a k0 hg hm hk0]
    have hm1 : ((fun b => if b = a then some k0 else m b) a).isSome = true := by simp
    simp only [Option.some_bind]
    rw [onClick_lit _ a hg hm1]
    simp only [Option.map_some']
    congr 1
    funext b
    by_cases hb : b = a
    · subst hb; simp [hm]
    · simp [hb]
  | some k =>
    have hk0' : pyIndex PIANO_KEYS (a.y - 1) = some k := hwf k hm
    rw [onClick_lit m a hg (by simp [hm])]
    have hm1 : (fun b => if b = a then none else m b) a = none := by simp
    simp only [Option.some_bind]
    rw [onClick_unlit _ a k hg hm1 hk0']
    simp only [Option.map_some']
    congr 1
    funext b
    by_cases hb : b = a
    · subst hb; simp [hm]
    · simp [hb]

/-- Witness for `toggle_twice_identity`: double-clicking (1, 1) on the empty
map gives back the empty map. -/
theorem toggle_twice_identity_witness :
    ((onClick emptyMap ⟨1, 1⟩).bind fun r => (onClick r.1 ⟨1, 1⟩).map Prod.fst)
      = some emptyMap :=
  toggle_twice_identity emptyMap ⟨1, 1⟩ (by decide) (by decide) (by decide)
    (fun k hk => by simp [emptyMap] at hk)

/-- Claim C3, counterexample: clicking the address (1, -36) on the empty map
raises — the guard `y - 1 < len(PIANO_KEYS)` passes, the cell is unlit, and
`PIANO_KEYS[-37]` is an `IndexError` (modelled `none`) — so toggle is not
total over the integers. -/
theorem toggle_deep_negative_row_raises :
    onClick emptyMap ⟨1, -36⟩ = none := by rfl

/-- Claim C3, amended: no engine operation raises on malformed input EXCEPT
for addresses whose row is at or below -len(catalog): the click handler is
total for rows above -len(catalog) (negative and overflowing columns and
overflowing rows included), and line rendering is total whenever the row
index `(y + scroll_y) // ROW_LENGTH` stays above -len(catalog); cursor
advance and clear are total functions by construction. -/
theorem engine_ops_total_in_reach (m : NoteMap) (a : Offset) (st : RollState)
    (scrollY y0 : Int)
    (ha : -(PIANO_KEYS.length : Int) < a.y)
    (hy : -(PIANO_KEYS.length : Int) < Int.fdiv (y0 + scrollY) ROW_LENGTH) :
    (onClick m a).isSome ∧ (renderLine st scrollY y0).isSome := by
  constructor
  · unfold onClick
    by_cases hg : a.x > 0 ∧ a.y - 1 < (PIANO_KEYS.length : Int)
    · rw [if_pos hg]
      by_cases hm : (m a).isSome
      · rw [if_pos hm]; rfl
      · rw [if_neg hm]
        obtain ⟨k, hk⟩ := Option.isSome_iff_exists.mp
          (pyIndex_isSome PIANO_KEYS (a.y - 1) (by omega) (by omega))
        rw [hk]
        rfl
    · rw [if_neg hg]; rfl
  · unfold renderLine
    by_cases hr : Int.fdiv (y0 + scrollY) ROW_LENGTH > (PIANO_KEYS.length : Int) + 1
    · rw [if_pos hr]; rfl
    · rw [if_neg hr]
      exact mapM_option_isSome _ _ fun c _ =>
        getStyle_isSome st (Int.fdiv (y0 + scrollY) ROW_LENGTH) (c : Int)
          (by omega) (by omega)

/-- Witness for `engine_ops_total_in_reach`: a click at (2, 3) and the
render of line 5 at zero scroll both succeed. -/
theorem engine_ops_total_in_reach_witness :
    (onClick emptyMap ⟨2, 3⟩).isSome ∧ (renderLine demoPlainState 0 5).isSome :=
  engine_ops_total_in_reach emptyMap ⟨2, 3⟩ demoPlainState 0 5 (by decide) (by decide)

/-- Helper: the catalog built from n octaves has 12 keys per octave. -/
theorem buildKeys_length (n : Nat) : (buildKeys n).length = 12 * n := by
  induction n with
  | zero => rfl
  | succ n ih =>
    simp only [buildKeys, List.length_append, ih, octaveBlock, List.length_cons,
      List.length_nil]
    omega

/-- Helper: element i of the catalog built from n octaves is the chromatic
pattern entry at i mod 12, in octave n - i / 12 (octaves descend from n). -/
theorem buildKeys_get? (n : Nat) (i : Nat) (h : i < 12 * n) :
    (buildKeys n).get? i =
      some ⟨(chromaticPatternSpec.getD (i % 12) (Note.C, false)).1, n - i / 12,
            (chromaticPatternSpec.getD (i % 12) (Note.C, false)).2⟩ := by
  induction n generalizing i with
  | zero => omega
  | succ n ih =>
    by_cases hi : i < 12
    · have hfirst : (buildKeys (n + 1)).get? i = (octaveBlock (n + 1)).get? i := by
        rw [buildKeys]
        exact List.get?_append (by simp [octaveBlock]; omega)
      have hmod : i % 12 = i := Nat.mod_eq_of_lt hi
      have hdiv : i / 12 = 0 := Nat.div_eq_of_lt hi
      rw [hfirst, hmod, hdiv]
      interval_cases i <;> rfl
    · push_neg at hi
      obtain ⟨j, rfl⟩ : ∃ j, i = j + 12 := ⟨i - 12, by omega⟩
      have hrest : (buildKeys (n + 1)).get? (j + 12) = (buildKeys n).get? j := by
        rw [buildKeys, List.get?_append_right (by simp [octaveBlock])]
        simp [octaveBlock]
      rw [hrest, ih j (by omega)]
      have hmod : (j + 12) % 12 = j % 12 := Nat.add_mod_right j 12
      have hdiv : (j + 12) / 12 = j / 12 + 1 := Nat.add_div_right j (by norm_num)
      have hoct : n - j / 12 = n + 1 - (j + 12) / 12 := by omega
      rw [hmod, hoct]

/-- Claim C9: the catalog built from n octaves has length 12 n; entry i is
the fixed chromatic-pattern key at position i mod 12 in octave n - i / 12
(so octaves descend from the highest); `PIANO_KEYS` is the build at
`OCTAVES` (3); and the transport row index `CURSOR_ROW` is 12 × OCTAVES + 1
= len(PIANO_KEYS) + 1. -/
theorem catalog_structure (n : Nat) (i : Nat) (h : i < 12 * n) :
    (buildKeys n).length = 12 * n ∧
    (buildKeys n).get? i =
      some ⟨(chromaticPatternSpec.getD (i % 12) (Note.C, false)).1, n - i / 12,
            (chromaticPatternSpec.getD (i % 12) (Note.C, false)).2⟩ ∧
    PIANO_KEYS = buildKeys OCTAVES ∧
    CURSOR_ROW = 12 * (OCTAVES : Int) + 1 ∧
    (PIANO_KEYS.length : Int) + 1 = CURSOR_ROW :=
  ⟨buildKeys_length n, buildKeys_get? n i h, rfl, rfl, by decide⟩

/-- Witness for `catalog_structure` at n = 3, i = 13 (the key C#2). -/
theorem catalog_structure_witness :
    (buildKeys 3).length = 12 * 3 ∧
    (buildKeys 3).get? 13 =
      some ⟨(chromaticPatternSpec.getD (13 % 12) (Note.C, false)).1, 3 - 13 / 12,
            (chromaticPatternSpec.getD (13 % 12) (Note.C, false)).2⟩ ∧
    PIANO_KEYS = buildKeys OCTAVES ∧
    CURSOR_ROW = 12 * (OCTAVES : Int) + 1 ∧
    (PIANO_KEYS.length : Int) + 1 = CURSOR_ROW :=
  catalog_structure 3 13 (by decide)

